import Mathlib

/-!
# Verification of the PZEMPlus Modbus-RTU transport layer

This file embeds the transport/transaction layer of the PZEMPlus library
(class `RS485`, implemented in `RS485.cpp`, together with the per-device
accessors in `PZEM003017.cpp` and `PZEM6L24.cpp`) as executable Lean
definitions and proves or refutes the specification claims about it.

Conventions of the embedding:
* C `uint8_t` / `uint16_t` / `uint32_t` values are `Nat` with explicit
  `% 2^w` (or `&&& mask`) wherever the C code can overflow or truncate.
* `int8_t` is embedded as `Int`, `int32_t` reinterpretation as an explicit
  `int32OfUInt32` conversion.
* Byte buffers are `List Nat`; out-of-range reads of the C stack arrays are
  mapped to `List.getD _ _ 0` and every theorem carries length hypotheses
  that keep the default out of reach of defined C behaviour.
* The blocking receive loop is embedded as a fold over the list of bytes
  that the loop consumed from the serial stream; wall-clock time does not
  appear, only the data path (which bytes get buffered and what the
  post-loop validation does with them).
-/

set_option maxRecDepth 16000

namespace PZEMPlus

/-! ## CRC16 engine (`RS485::calculateCRC16`, `RS485::verifyCRC16`) -/

/-- One iteration of the inner bit loop of `RS485::calculateCRC16`:
`if (crc & 0x0001) crc = (crc >> 1) ^ 0xA001; else crc = crc >> 1;`. -/
def crcRound (crc : Nat) : Nat :=
  if crc &&& 1 = 1 then (crc >>> 1) ^^^ 0xA001 else crc >>> 1

/-- The inner loop `for (j = 0; j < 8; j++)` of `RS485::calculateCRC16`,
iterated `j` times. -/
def crcRounds : Nat → Nat → Nat
  | 0, crc => crc
  | j + 1, crc => crcRounds j (crcRound crc)

/-- The body of the outer loop of `RS485::calculateCRC16` for one input
byte: `crc ^= data[i];` followed by eight bit rounds. -/
def crcByte (crc b : Nat) : Nat :=
  crcRounds 8 (crc ^^^ b)

/-- `RS485::calculateCRC16(data, length)`: Modbus CRC16, initial value
`0xFFFF`, polynomial `0xA001`, processed bit by bit.  The C `length`
argument is `uint8_t`; the embedding processes the whole list, so callers
stay within the `uint8_t` limit by keeping `data.length ≤ 255`. -/
def calculateCRC16 (data : List Nat) : Nat :=
  data.foldl crcByte 0xFFFF

/-- `RS485::verifyCRC16(data, length)`: recompute the CRC over all but the
last two bytes and compare with the trailing little-endian pair
`(data[length-1] << 8) | data[length-2]`. -/
def verifyCRC16 (data : List Nat) : Bool :=
  if data.length < 2 then false
  else
    calculateCRC16 (data.take (data.length - 2)) ==
      ((data.getD (data.length - 1) 0) <<< 8) ||| (data.getD (data.length - 2) 0)

/-- A byte sequence with its Modbus CRC16 appended low byte first, the
way every encoder in `RS485.cpp` stores it
(`request[n] = crc & 0xFF; request[n+1] = (crc >> 8) & 0xFF;`). -/
def crcAppendLE (S : List Nat) : List Nat :=
  S ++ [calculateCRC16 S &&& 0xFF, (calculateCRC16 S >>> 8) &&& 0xFF]

/-! ## Frame encoder -/

/-- The 8-byte read request built by `RS485::readHoldingRegisters` /
`RS485::readInputRegisters` (function codes 0x03/0x04):
`[addr, func, startHi, startLo, countHi, countLo, crcLo, crcHi]`,
with `request[6] = crc & 0xFF` and `request[7] = (crc >> 8) & 0xFF`. -/
def buildReadRequest (slaveAddr funcCode startAddr numRegs : Nat) : List Nat :=
  let body := [slaveAddr, funcCode,
               (startAddr >>> 8) &&& 0xFF, startAddr &&& 0xFF,
               (numRegs >>> 8) &&& 0xFF, numRegs &&& 0xFF]
  let crc := calculateCRC16 body
  body ++ [crc &&& 0xFF, (crc >>> 8) &&& 0xFF]

/-- The two bytes a 16-bit register value contributes to the payload of
`RS485::writeMultipleRegisters`, in the order selected by `big_endian`. -/
def regBytes (big_endian : Bool) (v : Nat) : List Nat :=
  if big_endian then [(v >>> 8) &&& 0xFF, v &&& 0xFF]
  else [v &&& 0xFF, (v >>> 8) &&& 0xFF]

/-- `uint8_t totalBytes = 6 + 1 + (2 * numRegs) + 2;` in
`RS485::writeMultipleRegisters`: the byte count passed to
`_serial->write(request, totalBytes)`, truncated to `uint8_t`.
(The guard `totalBytes > sizeof(request)` in the code can never fire,
because a `uint8_t` is always `< 256 = sizeof(request)`.) -/
def writeMultipleTotalBytes (numRegs : Nat) : Nat :=
  (6 + 1 + 2 * numRegs + 2) % 256

/-- The logical frame assembled by `RS485::writeMultipleRegisters`:
`[addr, 0x10, startHi, startLo, countHi, countLo, byteCount]`, the
per-register payload bytes, then the CRC low byte first.  The byte-count
field `request[6] = 2 * numRegs` is truncated to `uint8_t`.  This matches
the bytes the C code places in `request[]` whenever
`9 + 2 * numRegs ≤ 255` (for larger counts the C code overruns its own
256-byte buffer and computes the CRC over a truncated prefix, which is
undefined behaviour; only `writeMultipleTotalBytes` is used there). -/
def writeMultipleFrame (slaveAddr startAddr : Nat) (data : List Nat)
    (big_endian : Bool) : List Nat :=
  let numRegs := data.length
  let body := slaveAddr :: 0x10 ::
    ((startAddr >>> 8) &&& 0xFF) :: (startAddr &&& 0xFF) ::
    ((numRegs >>> 8) &&& 0xFF) :: (numRegs &&& 0xFF) ::
    ((2 * numRegs) % 256) :: (data.map (regBytes big_endian)).flatten
  let crc := calculateCRC16 body
  body ++ [crc &&& 0xFF, (crc >>> 8) &&& 0xFF]

/-- The bytes actually handed to `_serial->write(request, totalBytes)` by
`RS485::writeMultipleRegisters`: the first `totalBytes` bytes of the
request buffer. -/
def writeMultipleTransmitted (slaveAddr startAddr : Nat) (data : List Nat)
    (big_endian : Bool) : List Nat :=
  (writeMultipleFrame slaveAddr startAddr data big_endian).take
    (writeMultipleTotalBytes data.length)

/-! ## Register composer (`RS485::combineRegisters`) -/

/-- Reinterpretation of a `uint32_t` bit pattern as `int32_t`
(the C cast `(int32_t)combined`). -/
def int32OfUInt32 (x : Nat) : Int :=
  if x < 2 ^ 31 then (x : Int) else (x : Int) - 2 ^ 32

/-- Reinterpretation of an `int32_t` value as a `uint32_t` bit pattern
(the implicit conversion applied to the `return` value of
`RS485::combineRegisters`, whose declared return type is `uint32_t`). -/
def uint32OfInt32 (i : Int) : Nat :=
  (i % 2 ^ 32).toNat

/-- `RS485::combineRegisters(uint16_t low, uint16_t high, bool signed_result)`:
`combined = ((uint32_t)high << 16) | low`; when `signed_result` the code
returns `(int32_t)combined`, which the `uint32_t` return type converts
straight back to the same bit pattern.  Arguments are `uint16_t` values
(`< 2^16`). -/
def combineRegisters (low high : Nat) (signed_result : Bool) : Nat :=
  let combined := (high <<< 16) ||| low
  if signed_result then uint32OfInt32 (int32OfUInt32 combined) else combined

/-- The signed value a caller obtains from the composer, as in
`PZEM6L24::readActivePower`: the `uint32_t` result is reinterpreted as
`int32_t` (`int32_t sPowerRaw = (int32_t)uPowerRaw;`). -/
def combineRegistersSigned (low high : Nat) : Int :=
  int32OfUInt32 (combineRegisters low high true)

/-! ## Response reader (the receive loop of `RS485::readInputRegisters` /
`RS485::readHoldingRegisters`) -/

/-- State of the receive loop: `foundSlaveAddr`, the written prefix of the
stack array `uint8_t response[256]`, and the `uint8_t responseLength`
counter. -/
structure RxState where
  found : Bool
  buffer : List Nat
  len : Nat
deriving DecidableEq, Repr

/-- Loop state on entry: `responseLength = 0`, `foundSlaveAddr = false`. -/
def rxInit : RxState := ⟨false, [], 0⟩

/-- One iteration of the receive loop body for one byte read from the
stream:

```
if (!foundSlaveAddr && byte == slaveAddr) foundSlaveAddr = true;
if (foundSlaveAddr) {
    if (responseLength < sizeof(response)) {
        response[responseLength] = byte;
        responseLength++;
    }
}
```

`responseLength` is `uint8_t`, so the guard `responseLength < 256` is
always true and the increment wraps modulo 256; after 256 stored bytes
the loop overwrites the buffer from index 0.  Writes at `len` land inside
the already-written prefix (`List.set`) or extend it by one
(`++ [b]`). -/
def receiveStep (slaveAddr : Nat) (s : RxState) (b : Nat) : RxState :=
  let found := if !s.found && b == slaveAddr then true else s.found
  if found then
    if s.len < 256 then
      { found := found,
        buffer := if s.len < s.buffer.length then s.buffer.set s.len b
                  else s.buffer ++ [b],
        len := (s.len + 1) % 256 }
    else { s with found := found }
  else { s with found := found }

/-- The receive loop run over the list of bytes it consumed from the
serial stream (in order of arrival, all within the overall timeout). -/
def receiveRun (slaveAddr : Nat) (incoming : List Nat) : RxState :=
  incoming.foldl (receiveStep slaveAddr) rxInit

/-- The response buffer the post-loop validation sees: the first
`responseLength` bytes of `response[]`. -/
def receiveResponse (slaveAddr : Nat) (incoming : List Nat) : List Nat :=
  let s := receiveRun slaveAddr incoming
  s.buffer.take s.len

/-- `uint8_t minBytesExpected = 3 + (2 * numRegs) + 2;` — the
function-specific minimum length used by the early-exit test of the
receive loop, truncated to `uint8_t`. -/
def minBytesExpected (numRegs : Nat) : Nat :=
  (3 + 2 * numRegs + 2) % 256

/-! ## Response validation and register extraction (post-loop code of
`RS485::readInputRegisters` / `RS485::readHoldingRegisters`) -/

/-- Which exit the post-loop code of `RS485::readInputRegisters` takes.
The C function returns `bool`; the non-`ok` constructors record which of
the three `return false` sites fired. -/
inductive ReadOutcome where
  | ok (regs : List Nat)
  | noBytes
  | exceptionResponse
  | crcFailed
deriving DecidableEq, Repr

/-- The extraction loop

```
for (uint8_t i = 3; i < 3 + byteCount; i += 2) {
    if (dataIndex < numRegs) { data[dataIndex] = ...; dataIndex++; }
}
```

as the list of values written, recursing on `remaining = numRegs -
dataIndex`, the number of writes still allowed.  Iterations with
`dataIndex ≥ numRegs` neither read `response[]` nor write `data[]`, so
they contribute nothing and are collapsed into the `remaining = 0` base
case.  The embedding terminates for every `byteEnd`; the C loop itself
only does for `byteCount ≤ 252`, because for `3 + byteCount ≥ 256` the
`uint8_t` counter `i` wraps and never reaches the bound — theorems about
the loop therefore carry a `byteCount ≤ 252` hypothesis. -/
def extractRegs (response : List Nat) (big_endian : Bool) (byteEnd : Nat) :
    Nat → Nat → List Nat
  | 0, _ => []
  | remaining + 1, i =>
    if i < byteEnd then
      (if big_endian then ((response.getD i 0) <<< 8) ||| response.getD (i + 1) 0
       else (response.getD i 0) ||| ((response.getD (i + 1) 0) <<< 8)) ::
        extractRegs response big_endian byteEnd remaining (i + 2)
    else []

/-- The offsets into `response[]` that the extraction loop dereferences:
`response[i]` and `response[i + 1]`, read only on iterations that still
write (`dataIndex < numRegs`). -/
def extractReadOffsets (byteEnd : Nat) : Nat → Nat → List Nat
  | 0, _ => []
  | remaining + 1, i =>
    if i < byteEnd then
      i :: (i + 1) :: extractReadOffsets byteEnd remaining (i + 2)
    else []

/-- `uint8_t byteCount = response[2];` then the extraction loop starting
at offset 3. -/
def extractRegisters (response : List Nat) (numRegs : Nat)
    (big_endian : Bool) : List Nat :=
  extractRegs response big_endian (3 + response.getD 2 0) numRegs 3

/-- The post-loop validation of `RS485::readInputRegisters` (identical in
`readHoldingRegisters`):

```
if (responseLength == 0) return false;
if (response[1] & 0x80) return false;
if (!verifyCRC16(response, responseLength)) return false;
... extract ... return true;
```

For a one-byte response the C code reads the uninitialised cell
`response[1]`; the embedding reads the default 0 there, and every theorem
that relies on the exception branch carries a length hypothesis that
keeps the behaviour defined. -/
def validateResponse (response : List Nat) (numRegs : Nat)
    (big_endian : Bool) : ReadOutcome :=
  if response.length = 0 then .noBytes
  else if (response.getD 1 0) &&& 0x80 ≠ 0 then .exceptionResponse
  else if !verifyCRC16 response then .crcFailed
  else .ok (extractRegisters response numRegs big_endian)

/-- The data path of one `readInputRegisters`/`readHoldingRegisters`
transaction after the request was sent: the receive loop over the
consumed bytes followed by the post-loop validation. -/
def processResponse (slaveAddr numRegs : Nat) (big_endian : Bool)
    (incoming : List Nat) : ReadOutcome :=
  validateResponse (receiveResponse slaveAddr incoming) numRegs big_endian

/-! ## Direction-control state machine (`RS485::RS485`, `RS485::setEnable`,
`RS485::enableTransmit`, `RS485::enableReceive`) -/

/-- A GPIO side effect performed through the enable pin. -/
inductive PinOp where
  | mode (pin : Int)
  | write (pin : Int) (high : Bool)
deriving DecidableEq, Repr

/-- The fields of `RS485` relevant to direction control: the `int8_t
_rs485_en` pin number and the log of GPIO operations performed. -/
structure RS485State where
  rs485_en : Int
  responseTimeout : Nat
  pinOps : List PinOp
deriving DecidableEq, Repr

/-- `int8_t` view of a `uint8_t` value (the assignment
`_rs485_en = enablePin` inside `setEnable`). -/
def int8OfUInt8 (n : Nat) : Int :=
  if n % 256 < 128 then (n % 256 : Int) else (n % 256 : Int) - 256

/-- The constructor `RS485::RS485(Stream*)`:
`_responseTimeout(100), _rs485_en(-1)`. -/
def rs485Init : RS485State :=
  { rs485_en := -1, responseTimeout := 100, pinOps := [] }

/-- `RS485::enableTransmit`: `if (_rs485_en >= 0) digitalWrite(_rs485_en, HIGH)`. -/
def enableTransmit (s : RS485State) : RS485State :=
  if s.rs485_en ≥ 0 then
    { s with pinOps := s.pinOps ++ [.write s.rs485_en true] }
  else s

/-- `RS485::enableReceive`: `if (_rs485_en >= 0) digitalWrite(_rs485_en, LOW)`. -/
def enableReceive (s : RS485State) : RS485State :=
  if s.rs485_en ≥ 0 then
    { s with pinOps := s.pinOps ++ [.write s.rs485_en false] }
  else s

/-- `RS485::setEnable(uint8_t enablePin)`: the assignment, `pinMode` and
initial `enableReceive` happen only under the guard `_rs485_en >= 0`;
otherwise the method returns `false` without touching anything. -/
def setEnable (s : RS485State) (enablePin : Nat) : Bool × RS485State :=
  if s.rs485_en ≥ 0 then
    let p := int8OfUInt8 enablePin
    (true, enableReceive
      { s with rs485_en := p, pinOps := s.pinOps ++ [.mode p] })
  else (false, s)

/-- `RS485::setTimeouts(uint32_t responseTimeout)`. -/
def setTimeouts (s : RS485State) (t : Nat) : RS485State :=
  { s with responseTimeout := t % 2 ^ 32 }

/-- One public operation on an `RS485` instance, restricted to its effect
on the direction-control state: every transaction method
(`readHoldingRegisters`, `readInputRegisters`, `writeSingleRegister`,
`writeMultipleRegisters`, `resetEnergy`) calls `enableTransmit` and later
`enableReceive`; `setEnable` and `setTimeouts` are as above. -/
inductive RS485Op where
  | setEnablePin (pin : Nat)
  | transaction
  | configureTimeout (t : Nat)
deriving DecidableEq, Repr

/-- Effect of one public operation on the direction-control state. -/
def rs485Step (s : RS485State) : RS485Op → RS485State
  | .setEnablePin p => (setEnable s p).2
  | .transaction => enableReceive (enableTransmit s)
  | .configureTimeout t => setTimeouts s t

/-- A freshly constructed instance after any sequence of public
operations. -/
def rs485Run (ops : List RS485Op) : RS485State :=
  ops.foldl rs485Step rs485Init

/-! ## Batch accessors (`PZEM003017::readAll`,
`PZEM6L24::readVoltage(float&,float&,float&)`) -/

/-- What one output argument of a batch accessor holds after the call, as
seen by the caller: untouched (`stale`), set to the failure sentinel, or
set to a freshly decoded value.  The float scale multiplication is
abstracted away: `fresh` carries the raw register value the scaled output
was computed from. -/
inductive OutCell where
  | stale
  | sentinel
  | fresh (raw : Nat)
deriving DecidableEq, Repr

/-- `PZEM003017::readAll(float*, float*, float*, float*)`: on a failed
`readInputRegisters` it returns `false` without writing any output; on
success it writes all four (voltage `data[0]`, current `data[1]`, power
`combineRegisters(data[2], data[3])`, energy
`combineRegisters(data[4], data[5])`).  The argument is the transaction
result (`none` = the 6-register read failed). -/
def readAllModel (result : Option (List Nat)) :
    Bool × (OutCell × OutCell × OutCell × OutCell) :=
  match result with
  | none => (false, (.stale, .stale, .stale, .stale))
  | some data =>
      (true,
        (.fresh (data.getD 0 0),
         .fresh (data.getD 1 0),
         .fresh (combineRegisters (data.getD 2 0) (data.getD 3 0) false),
         .fresh (combineRegisters (data.getD 4 0) (data.getD 5 0) false)))

/-- `PZEM6L24::readVoltage(float& A, float& B, float& C)`: on failure all
three outputs are assigned the sentinel (`-1.0f`), on success all three
are assigned decoded values. -/
def readVoltage6L24 (result : Option (List Nat)) :
    OutCell × OutCell × OutCell :=
  match result with
  | none => (.sentinel, .sentinel, .sentinel)
  | some data =>
      (.fresh (data.getD 0 0), .fresh (data.getD 1 0), .fresh (data.getD 2 0))

/-! ## CRC16 engine: bounds and injectivity

The shift-register update of `calculateCRC16` is a permutation of the
16-bit state space for every fixed input byte; this is what makes the
checksum detect every single-bit error. -/

theorem crcRound_lt {c : Nat} (h : c < 65536) : crcRound c < 65536 := by
  have h1 : c >>> 1 = c / 2 := by simpa using Nat.shiftRight_eq_div_pow c 1
  have h16 : (65536 : Nat) = 2 ^ 16 := by norm_num
  unfold crcRound
  split
  · rw [h16]
    exact Nat.xor_lt_two_pow (by omega) (by norm_num)
  · omega

theorem crcRound_inj {x y : Nat} (hx : x < 65536) (hy : y < 65536)
    (h : crcRound x = crcRound y) : x = y := by
  have hxm : x &&& 1 = x % 2 := Nat.and_one_is_mod x
  have hym : y &&& 1 = y % 2 := Nat.and_one_is_mod y
  have hxs : x >>> 1 = x / 2 := by simpa using Nat.shiftRight_eq_div_pow x 1
  have hys : y >>> 1 = y / 2 := by simpa using Nat.shiftRight_eq_div_pow y 1
  have hxd : x / 2 < 2 ^ 15 := by omega
  have hyd : y / 2 < 2 ^ 15 := by omega
  have hbitx : ((x / 2) ^^^ 0xA001).testBit 15 = true := by
    rw [Nat.testBit_xor, Nat.testBit_lt_two_pow hxd]
    decide
  have hbity : ((y / 2) ^^^ 0xA001).testBit 15 = true := by
    rw [Nat.testBit_xor, Nat.testBit_lt_two_pow hyd]
    decide
  unfold crcRound at h
  by_cases px : x &&& 1 = 1 <;> by_cases py : y &&& 1 = 1
  · rw [if_pos px, if_pos py] at h
    have h2 : x >>> 1 = y >>> 1 := by
      have h3 := congrArg (fun z => z ^^^ 0xA001) h
      simpa [Nat.xor_cancel_right] using h3
    rw [hxs, hys] at h2
    omega
  · exfalso
    rw [if_pos px, if_neg py, hxs, hys] at h
    rw [h, Nat.testBit_lt_two_pow hyd] at hbitx
    exact Bool.noConfusion hbitx
  · exfalso
    rw [if_neg px, if_pos py, hxs, hys] at h
    rw [← h, Nat.testBit_lt_two_pow hxd] at hbity
    exact Bool.noConfusion hbity
  · rw [if_neg px, if_neg py, hxs, hys] at h
    omega

theorem crcRounds_lt : ∀ (j : Nat) {c : Nat}, c < 65536 → crcRounds j c < 65536
  | 0, _, h => h
  | j + 1, _, h => crcRounds_lt j (crcRound_lt h)

theorem crcRounds_inj : ∀ (j : Nat) {x y : Nat}, x < 65536 → y < 65536 →
    crcRounds j x = crcRounds j y → x = y
  | 0, _, _, _, _, h => h
  | j + 1, _, _, hx, hy, h =>
      crcRound_inj hx hy
        (crcRounds_inj j (crcRound_lt hx) (crcRound_lt hy) h)

theorem crcByte_lt {c b : Nat} (hc : c < 65536) (hb : b < 65536) :
    crcByte c b < 65536 := by
  unfold crcByte
  exact crcRounds_lt 8 (by
    have h16 : (65536 : Nat) = 2 ^ 16 := by norm_num
    rw [h16]
    exact Nat.xor_lt_two_pow (by omega) (by omega))

theorem crcByte_inj_left {c c' b : Nat} (hc : c < 65536) (hc' : c' < 65536)
    (hb : b < 65536) (h : crcByte c b = crcByte c' b) : c = c' := by
  have h16 : (65536 : Nat) = 2 ^ 16 := by norm_num
  have hx : c ^^^ b < 65536 := by rw [h16]; exact Nat.xor_lt_two_pow (by omega) (by omega)
  have hy : c' ^^^ b < 65536 := by rw [h16]; exact Nat.xor_lt_two_pow (by omega) (by omega)
  have h2 : c ^^^ b = c' ^^^ b := crcRounds_inj 8 hx hy h
  have h3 := congrArg (fun z => z ^^^ b) h2
  simpa [Nat.xor_cancel_right] using h3

theorem crcByte_inj_right {c b b' : Nat} (hc : c < 65536) (hb : b < 65536)
    (hb' : b' < 65536) (h : crcByte c b = crcByte c b') : b = b' := by
  have h16 : (65536 : Nat) = 2 ^ 16 := by norm_num
  have hx : c ^^^ b < 65536 := by rw [h16]; exact Nat.xor_lt_two_pow (by omega) (by omega)
  have hy : c ^^^ b' < 65536 := by rw [h16]; exact Nat.xor_lt_two_pow (by omega) (by omega)
  have h2 : c ^^^ b = c ^^^ b' := crcRounds_inj 8 hx hy h
  have h3 := congrArg (fun z => c ^^^ z) h2
  simpa [Nat.xor_cancel_left] using h3

theorem crcFold_lt : ∀ (l : List Nat) (s : Nat), s < 65536 →
    (∀ b ∈ l, b < 65536) → l.foldl crcByte s < 65536
  | [], _, hs, _ => hs
  | b :: rest, s, hs, hl =>
      crcFold_lt rest (crcByte s b) (crcByte_lt hs (hl b (by simp)))
        (fun x hx => hl x (by simp [hx]))

theorem crcFold_inj : ∀ (l : List Nat) {s t : Nat}, s < 65536 → t < 65536 →
    (∀ b ∈ l, b < 65536) → s ≠ t →
    l.foldl crcByte s ≠ l.foldl crcByte t := by
  intro l
  induction l with
  | nil => intro s t _ _ _ hne; simpa using hne
  | cons b rest ih =>
      intro s t hs ht hl hne
      rw [List.foldl_cons, List.foldl_cons]
      have hb : b < 65536 := hl b (by simp)
      exact ih (crcByte_lt hs hb) (crcByte_lt ht hb)
        (fun x hx => hl x (by simp [hx]))
        (fun hEq => hne (crcByte_inj_left hs ht hb hEq))

/-- Changing one byte of the input changes the folded CRC state. -/
theorem crcFold_set_ne : ∀ (l : List Nat) (i v s : Nat), s < 65536 →
    (∀ b ∈ l, b < 65536) → v < 65536 → i < l.length → v ≠ l.getD i 0 →
    (l.set i v).foldl crcByte s ≠ l.foldl crcByte s := by
  intro l
  induction l with
  | nil => intro i v s _ _ _ hi _; simp at hi
  | cons b rest ih =>
      intro i v s hs hl hv hi hne
      have hb : b < 65536 := hl b (by simp)
      cases i with
      | zero =>
          simp only [List.set, List.foldl_cons]
          have hne' : crcByte s v ≠ crcByte s b := fun hEq =>
            hne ((crcByte_inj_right hs hv hb hEq).trans (by simp))
          exact crcFold_inj rest (crcByte_lt hs hv) (crcByte_lt hs hb)
            (fun x hx => hl x (by simp [hx])) hne'
      | succ i' =>
          simp only [List.set, List.foldl_cons]
          exact ih i' v (crcByte s b) (crcByte_lt hs hb)
            (fun x hx => hl x (by simp [hx])) hv (by simpa using hi)
            (by simpa using hne)

theorem calculateCRC16_lt (l : List Nat) (hl : ∀ b ∈ l, b < 65536) :
    calculateCRC16 l < 65536 :=
  crcFold_lt l 0xFFFF (by norm_num) hl

theorem calculateCRC16_set_ne (l : List Nat) (i v : Nat)
    (hl : ∀ b ∈ l, b < 65536) (hv : v < 65536) (hi : i < l.length)
    (hne : v ≠ l.getD i 0) :
    calculateCRC16 (l.set i v) ≠ calculateCRC16 l :=
  crcFold_set_ne l i v 0xFFFF (by norm_num) hl hv hi hne

/-- Little-endian recombination of a shifted high byte with a low byte. -/
theorem or16 (a b : Nat) (hb : b < 256) : (a <<< 8) ||| b = 256 * a + b := by
  rw [Nat.shiftLeft_eq]
  calc a * 2 ^ 8 ||| b = 2 ^ 8 * a ||| b := by rw [Nat.mul_comm]
    _ = 2 ^ 8 * a + b := (Nat.mul_add_lt_is_or (by omega) a).symm
    _ = 256 * a + b := by norm_num

theorem and_255_eq_mod (c : Nat) : c &&& 255 = c % 256 := by
  have h := Nat.and_pow_two_sub_one_eq_mod c 8
  norm_num at h
  exact h

/-- `verifyCRC16` on a buffer ending in two explicit bytes: recompute the
CRC over the prefix and compare with the little-endian pair. -/
theorem verifyCRC16_append_pair (S : List Nat) (x y : Nat) :
    verifyCRC16 (S ++ [x, y]) = (calculateCRC16 S == ((y <<< 8) ||| x)) := by
  unfold verifyCRC16
  have hlen : (S ++ [x, y]).length = S.length + 2 := by simp
  rw [hlen, if_neg (by omega)]
  have h2 : S.length + 2 - 2 = S.length := by omega
  have h1 : S.length + 2 - 1 = S.length + 1 := by omega
  rw [h1, h2, List.take_left,
      List.getD_append_right _ _ _ _ (by omega),
      List.getD_append_right _ _ _ _ (by omega)]
  simp

/-- Recombining the transmitted CRC bytes little-endian gives back the
16-bit CRC value. -/
theorem crc_received_eq (c : Nat) (hc : c < 65536) :
    ((((c >>> 8) &&& 255) <<< 8) ||| (c &&& 255)) = c := by
  have hdiv : c >>> 8 = c / 256 := by
    have h := Nat.shiftRight_eq_div_pow c 8
    norm_num at h
    exact h
  rw [and_255_eq_mod, and_255_eq_mod, hdiv,
      Nat.mod_eq_of_lt (show c / 256 < 256 by omega),
      or16 _ _ (by omega)]
  omega

/-- CRC round trip: a byte sequence with its own CRC appended verifies. -/
theorem verifyCRC16_append (S : List Nat) (hb : ∀ b ∈ S, b < 256) :
    verifyCRC16 (crcAppendLE S) = true := by
  have hbw : ∀ b ∈ S, b < 65536 := fun b h => lt_trans (hb b h) (by norm_num)
  have hc : calculateCRC16 S < 65536 := calculateCRC16_lt S hbw
  unfold crcAppendLE
  rw [verifyCRC16_append_pair, crc_received_eq _ hc]
  simp

/-- Flipping any single bit of a CRC-terminated buffer breaks
verification. -/
theorem verifyCRC16_flip (S : List Nat) (hb : ∀ b ∈ S, b < 256)
    (i j : Nat) (hi : i < (crcAppendLE S).length) (hj : j < 8) :
    verifyCRC16 ((crcAppendLE S).set i
      (((crcAppendLE S).getD i 0) ^^^ (1 <<< j))) = false := by
  have hbw : ∀ b ∈ S, b < 65536 := fun b h => lt_trans (hb b h) (by norm_num)
  have hc : calculateCRC16 S < 65536 := calculateCRC16_lt S hbw
  have hm : (1 <<< j) = 2 ^ j := Nat.one_shiftLeft j
  have hmpos : 0 < 2 ^ j := pow_pos (by norm_num) j
  have hmlt : 2 ^ j < 256 := by
    have h1 : 2 ^ j ≤ 2 ^ 7 := Nat.pow_le_pow_right (by norm_num) (by omega)
    have h2 : (2 : Nat) ^ 7 = 128 := by norm_num
    omega
  have hxne : ∀ b : Nat, b ^^^ (1 <<< j) ≠ b := by
    intro b hEq
    rw [hm] at hEq
    have h2 := congrArg (fun z => b ^^^ z) hEq
    simp only [Nat.xor_cancel_left, Nat.xor_self] at h2
    omega
  have hxlt : ∀ b : Nat, b < 256 → b ^^^ (1 <<< j) < 256 := by
    intro b hblt
    rw [hm]
    have h256 : (256 : Nat) = 2 ^ 8 := by norm_num
    rw [h256] at hblt ⊢
    exact Nat.xor_lt_two_pow hblt (by rw [← h256]; exact hmlt)
  have hlo : calculateCRC16 S &&& 0xFF < 256 := by
    have h := (Nat.and_le_right : calculateCRC16 S &&& 0xFF ≤ 0xFF)
    omega
  have hhi : (calculateCRC16 S >>> 8) &&& 0xFF < 256 := by
    have h := (Nat.and_le_right : (calculateCRC16 S >>> 8) &&& 0xFF ≤ 0xFF)
    omega
  have hceq : 256 * ((calculateCRC16 S >>> 8) &&& 0xFF) +
      (calculateCRC16 S &&& 0xFF) = calculateCRC16 S := by
    rw [← or16 _ _ hlo]
    exact crc_received_eq _ hc
  have hilen : i < S.length + 2 := by simpa [crcAppendLE] using hi
  have hsplit : i < S.length ∨ i = S.length ∨ i = S.length + 1 := by omega
  rcases hsplit with hcase | hcase | hcase
  · -- flip inside the data prefix: the recomputed CRC changes
    have hgd : (crcAppendLE S).getD i 0 = S.getD i 0 := by
      unfold crcAppendLE
      exact List.getD_append _ _ _ _ hcase
    have hmem : S.getD i 0 ∈ S := by
      rw [List.getD_eq_getElem _ _ hcase]
      exact List.getElem_mem hcase
    have hset : (crcAppendLE S).set i ((crcAppendLE S).getD i 0 ^^^ (1 <<< j)) =
        (S.set i (S.getD i 0 ^^^ (1 <<< j))) ++
          [calculateCRC16 S &&& 0xFF, (calculateCRC16 S >>> 8) &&& 0xFF] := by
      rw [hgd]
      unfold crcAppendLE
      rw [List.set_append, if_pos hcase]
    rw [hset, verifyCRC16_append_pair]
    refine beq_eq_false_iff_ne.mpr ?_
    rw [crc_received_eq _ hc]
    exact calculateCRC16_set_ne S i _ hbw
      (lt_trans (hxlt _ (hb _ hmem)) (by norm_num)) hcase (hxne _)
  · -- flip in the CRC low byte: the received CRC changes
    subst hcase
    have hgd : (crcAppendLE S).getD S.length 0 = calculateCRC16 S &&& 0xFF := by
      unfold crcAppendLE
      rw [List.getD_append_right _ _ _ _ (le_refl _)]
      simp
    have hset : (crcAppendLE S).set S.length
        ((crcAppendLE S).getD S.length 0 ^^^ (1 <<< j)) =
        S ++ [(calculateCRC16 S &&& 0xFF) ^^^ (1 <<< j),
              (calculateCRC16 S >>> 8) &&& 0xFF] := by
      rw [hgd]
      unfold crcAppendLE
      rw [List.set_append, if_neg (by omega)]
      simp
    rw [hset, verifyCRC16_append_pair]
    refine beq_eq_false_iff_ne.mpr ?_
    rw [or16 _ _ (hxlt _ hlo)]
    have hvne := hxne (calculateCRC16 S &&& 0xFF)
    omega
  · -- flip in the CRC high byte: the received CRC changes
    subst hcase
    have hgd : (crcAppendLE S).getD (S.length + 1) 0 =
        (calculateCRC16 S >>> 8) &&& 0xFF := by
      unfold crcAppendLE
      rw [List.getD_append_right _ _ _ _ (by omega)]
      simp
    have hset : (crcAppendLE S).set (S.length + 1)
        ((crcAppendLE S).getD (S.length + 1) 0 ^^^ (1 <<< j)) =
        S ++ [calculateCRC16 S &&& 0xFF,
              ((calculateCRC16 S >>> 8) &&& 0xFF) ^^^ (1 <<< j)] := by
      rw [hgd]
      unfold crcAppendLE
      rw [List.set_append, if_neg (by omega)]
      simp
    rw [hset, verifyCRC16_append_pair]
    refine beq_eq_false_iff_ne.mpr ?_
    rw [or16 _ _ hlo]
    have hvne := hxne ((calculateCRC16 S >>> 8) &&& 0xFF)
    omega

/-- C3.  CRC round-trip: for every byte sequence `S` within the `uint8_t`
length limit of `calculateCRC16` (so that `S` plus the two CRC bytes fits
the `uint8_t` length argument of `verifyCRC16`), appending the Modbus
CRC16 of `S` low byte first and calling `verifyCRC16` on the combined
buffer returns `true`; and flipping any single bit (bit `j` of byte `i`)
anywhere in the combined buffer makes `verifyCRC16` return `false`. -/
theorem crc_roundtrip_and_bit_flip (S : List Nat) (hb : ∀ b ∈ S, b < 256)
    (_hlen : S.length ≤ 253) :
    verifyCRC16 (crcAppendLE S) = true ∧
    ∀ i, i < (crcAppendLE S).length → ∀ j, j < 8 →
      verifyCRC16 ((crcAppendLE S).set i
        (((crcAppendLE S).getD i 0) ^^^ (1 <<< j))) = false :=
  ⟨verifyCRC16_append S hb, fun i hi j hj => verifyCRC16_flip S hb i j hi hj⟩

/-- Witness for C3 at the concrete sequence `[0xF8, 0x04]`. -/
theorem crc_roundtrip_and_bit_flip_witness :
    (∀ b ∈ [0xF8, 0x04], b < 256) ∧ ([0xF8, 0x04] : List Nat).length ≤ 253 ∧
    (verifyCRC16 (crcAppendLE [0xF8, 0x04]) = true ∧
     ∀ i, i < (crcAppendLE [0xF8, 0x04]).length → ∀ j, j < 8 →
       verifyCRC16 ((crcAppendLE [0xF8, 0x04]).set i
         (((crcAppendLE [0xF8, 0x04]).getD i 0) ^^^ (1 <<< j))) = false) :=
  ⟨by decide, by decide,
   crc_roundtrip_and_bit_flip [0xF8, 0x04] (by decide) (by decide)⟩

/-! ## C4: signed register composition -/

/-- C4 counterexample.  Composing the register pair with `0xFFF6` as the
high half and `0xFFFF` as the low half (order HighFirst per the claim)
and reinterpreting as signed 32-bit gives `-589825` (`0xFFF6FFFF`), not
`-10`. -/
theorem combine_highfirst_counterexample :
    combineRegistersSigned 0xFFFF 0xFFF6 = -589825 ∧
    ¬ combineRegistersSigned 0xFFFF 0xFFF6 = -10 := by
  constructor
  · decide
  · decide

/-- C4 amended.  The pair `(first = 0xFFF6, second = 0xFFFF)` composes to
`-10` when the first register is taken as the LOW half of the 32-bit
word (composer called with `low = 0xFFF6`, `high = 0xFFFF`), i.e. under
order LowFirst, with signed interpretation. -/
theorem combine_lowfirst_signed :
    combineRegistersSigned 0xFFF6 0xFFFF = -10 := by
  decide

/-! ## C5: exception classification -/

/-- C5 counterexample.  An exception reply whose trailing CRC is invalid
is classified by the validation code exactly the same way — the call
returns at the exception branch and the CRC of the exception frame is
never verified in that call. -/
theorem exception_crc_unchecked_counterexample :
    validateResponse [0xF8, 0x84, 0x02, 0x00, 0x00] 1 true =
      .exceptionResponse ∧
    verifyCRC16 [0xF8, 0x84, 0x02, 0x00, 0x00] = false := by
  constructor
  · decide
  · decide

/-- C5 amended.  Every nonempty response whose second byte has bit `0x80`
set makes the call fail at the exception branch, before the CRC check is
reached: the classification does not depend on the trailing CRC, the CRC
of the exception frame is never verified in that call, and the exception
code byte `response[2]` is not read or surfaced (the C API returns a bare
`bool`). -/
theorem exception_branch_before_crc (response : List Nat) (numRegs : Nat)
    (big_endian : Bool) (hne : ¬ response.length = 0)
    (hexc : (response.getD 1 0) &&& 0x80 ≠ 0) :
    validateResponse response numRegs big_endian = .exceptionResponse := by
  unfold validateResponse
  rw [if_neg hne, if_pos hexc]

/-- Witness for C5 at the claim's concrete exception reply
`[0xF8, 0x84, 0x02, crcLo, crcHi]` with a valid CRC. -/
theorem exception_branch_before_crc_witness :
    ¬ ([0xF8, 0x84, 0x02, 0x12, 0xF0] : List Nat).length = 0 ∧
    (([0xF8, 0x84, 0x02, 0x12, 0xF0] : List Nat).getD 1 0) &&& 0x80 ≠ 0 ∧
    verifyCRC16 [0xF8, 0x84, 0x02, 0x12, 0xF0] = true ∧
    validateResponse [0xF8, 0x84, 0x02, 0x12, 0xF0] 1 true =
      .exceptionResponse :=
  ⟨by decide, by decide, by decide,
   exception_branch_before_crc [0xF8, 0x84, 0x02, 0x12, 0xF0] 1 true
     (by decide) (by decide)⟩

/-! ## C6: batch-output atomicity -/

/-- C6 counterexample.  A failed `PZEM003017::readAll` leaves all four
output arguments untouched (stale) — it does not set them to the
sentinel. -/
theorem readall_failure_counterexample :
    (readAllModel none).2 = (.stale, .stale, .stale, .stale) ∧
    ¬ (readAllModel none).2 = (.sentinel, .sentinel, .sentinel, .sentinel) := by
  constructor
  · decide
  · decide

/-- C6 amended.  Batch accessors are all-or-nothing, but the failure
behaviour differs per accessor: `PZEM003017::readAll` returns `false`
and leaves every output stale, while
`PZEM6L24::readVoltage(float&,float&,float&)` sets every output to the
sentinel; on success both write every output with a freshly decoded
value.  In no case does one call publish a mix of fresh and stale
values. -/
theorem batch_outputs_all_or_nothing (data : List Nat) :
    readAllModel none = (false, (.stale, .stale, .stale, .stale)) ∧
    readAllModel (some data) =
      (true, (.fresh (data.getD 0 0), .fresh (data.getD 1 0),
              .fresh (combineRegisters (data.getD 2 0) (data.getD 3 0) false),
              .fresh (combineRegisters (data.getD 4 0) (data.getD 5 0) false))) ∧
    readVoltage6L24 none = (.sentinel, .sentinel, .sentinel) ∧
    readVoltage6L24 (some data) =
      (.fresh (data.getD 0 0), .fresh (data.getD 1 0), .fresh (data.getD 2 0)) :=
  ⟨rfl, rfl, rfl, rfl⟩

/-! ## C7: Scenario A round trip -/

/-- C7.  `readInputRegisters(addr = 0xF8, start = 0x0000, count = 1)`
transmits exactly `[0xF8, 0x04, 0x00, 0x00, 0x00, 0x01, 0x25, 0xA3]`
(correct trailing CRC, low byte first), and the reply
`[0xF8, 0x04, 0x02, 0x08, 0x98, 0x23, 0x4E]` (byte count 2, valid CRC)
decodes to the single raw register 2200 = 0x0898 with success. -/
theorem scenario_a_roundtrip :
    buildReadRequest 0xF8 0x04 0x0000 1 =
      [0xF8, 0x04, 0x00, 0x00, 0x00, 0x01, 0x25, 0xA3] ∧
    verifyCRC16 [0xF8, 0x04, 0x00, 0x00, 0x00, 0x01, 0x25, 0xA3] = true ∧
    processResponse 0xF8 1 true [0xF8, 0x04, 0x02, 0x08, 0x98, 0x23, 0x4E] =
      .ok [2200] := by
  refine ⟨by decide, by decide, by decide⟩

/-! ## C1: resynchronization of the receive loop -/

/-- Before the slave address has been seen, a non-matching byte leaves the
loop state unchanged (it is read from the stream and dropped). -/
theorem receiveStep_skip {slaveAddr b : Nat} {buf : List Nat} {n : Nat}
    (hb : (b == slaveAddr) = false) :
    receiveStep slaveAddr ⟨false, buf, n⟩ b = ⟨false, buf, n⟩ := by
  simp [receiveStep, hb]

/-- Once the address has been found, a byte is appended at the end of the
written prefix (as long as the `uint8_t` length counter has not
wrapped). -/
theorem receiveStep_append {slaveAddr b : Nat} {buf : List Nat}
    (hlt : buf.length < 256) :
    receiveStep slaveAddr ⟨true, buf, buf.length⟩ b =
      ⟨true, buf ++ [b], (buf.length + 1) % 256⟩ := by
  simp [receiveStep, hlt]

/-- Garbage bytes that never match the slave address leave the loop in its
initial state. -/
theorem receiveRun_garbage (slaveAddr : Nat) :
    ∀ (garbage : List Nat), (∀ b ∈ garbage, b ≠ slaveAddr) →
      garbage.foldl (receiveStep slaveAddr) rxInit = rxInit := by
  intro garbage
  induction garbage with
  | nil => intro _; rfl
  | cons b rest ih =>
      intro hg
      rw [List.foldl_cons]
      have hb : (b == slaveAddr) = false :=
        beq_eq_false_iff_ne.mpr (hg b (by simp))
      rw [show receiveStep slaveAddr rxInit b = rxInit from receiveStep_skip hb]
      exact ih (fun x hx => hg x (by simp [hx]))

/-- After the address matched, the loop appends every further byte; the
`uint8_t` length counter ends at the byte count modulo 256 (it wraps to 0
when exactly 256 bytes have been stored). -/
theorem receiveRun_found (slaveAddr : Nat) :
    ∀ (l buf : List Nat), buf.length + l.length ≤ 256 → buf.length < 256 →
      l.foldl (receiveStep slaveAddr) ⟨true, buf, buf.length⟩ =
        ⟨true, buf ++ l, (buf.length + l.length) % 256⟩ := by
  intro l
  induction l with
  | nil =>
      intro buf _ hblen
      simp [Nat.mod_eq_of_lt hblen]
  | cons b rest ih =>
      intro buf h hblen
      rw [List.foldl_cons, receiveStep_append hblen]
      by_cases hfull : buf.length + 1 = 256
      · have hrest : rest = [] := by
          have hr : (b :: rest).length = rest.length + 1 := by simp
          have : rest.length = 0 := by omega
          exact List.eq_nil_of_length_eq_zero this
        subst hrest
        simp [hfull]
      · have hmod : (buf.length + 1) % 256 = (buf ++ [b]).length := by
          have hlt : buf.length + 1 < 256 := by omega
          simp [Nat.mod_eq_of_lt hlt]
        rw [hmod, ih (buf ++ [b]) (by simp at h ⊢; omega) (by simp; omega)]
        have h1 : (buf ++ [b]) ++ rest = buf ++ b :: rest := by simp
        have h2 : ((buf ++ [b]).length + rest.length) % 256 =
            (buf.length + (b :: rest).length) % 256 := by
          congr 1
          simp
          omega
        rw [h1, h2]

/-- C1 amended.  If no garbage byte equals the slave address, the frame
starts with the slave address, and the frame fits the `uint8_t` length
counter (at most 255 bytes), then the receive loop buffers none of the
garbage bytes and its buffer ends up exactly equal to the frame: buffering
starts at the first byte equal to the slave address and every later byte
is appended. -/
theorem resync_discards_garbage (slaveAddr : Nat) (garbage frame : List Nat)
    (hg : ∀ b ∈ garbage, b ≠ slaveAddr)
    (hhead : frame.head? = some slaveAddr)
    (hlen : frame.length ≤ 255) :
    receiveResponse slaveAddr (garbage ++ frame) = frame := by
  obtain ⟨rest, rfl⟩ : ∃ rest, frame = slaveAddr :: rest := by
    cases frame with
    | nil => simp at hhead
    | cons a r =>
        simp only [List.head?_cons, Option.some.injEq] at hhead
        exact ⟨r, by rw [hhead]⟩
  unfold receiveResponse receiveRun
  rw [List.foldl_append, receiveRun_garbage slaveAddr garbage hg,
      List.foldl_cons]
  have h0 : receiveStep slaveAddr rxInit slaveAddr =
      ⟨true, [slaveAddr], 1⟩ := by
    simp [receiveStep, rxInit]
  rw [h0]
  rw [show (⟨true, [slaveAddr], 1⟩ : RxState) =
        ⟨true, [slaveAddr], ([slaveAddr] : List Nat).length⟩ from rfl]
  rw [receiveRun_found slaveAddr rest [slaveAddr] (by simp at hlen ⊢; omega) (by simp)]
  have hmod : (([slaveAddr] : List Nat).length + rest.length) % 256 =
      rest.length + 1 := by
    have h255 : (slaveAddr :: rest).length ≤ 255 := hlen
    simp at h255 ⊢
    omega
  rw [hmod]
  show ([slaveAddr] ++ rest).take (rest.length + 1) = slaveAddr :: rest
  simp [List.take_succ_cons]

/-- Witness for C1 at three garbage bytes followed by the Scenario A
reply frame. -/
theorem resync_discards_garbage_witness :
    (∀ b ∈ [0x01, 0x02, 0x03], b ≠ 0xF8) ∧
    ([0xF8, 0x04, 0x02, 0x08, 0x98, 0x23, 0x4E] : List Nat).head? = some 0xF8 ∧
    ([0xF8, 0x04, 0x02, 0x08, 0x98, 0x23, 0x4E] : List Nat).length ≤ 255 ∧
    receiveResponse 0xF8
        ([0x01, 0x02, 0x03] ++ [0xF8, 0x04, 0x02, 0x08, 0x98, 0x23, 0x4E]) =
      [0xF8, 0x04, 0x02, 0x08, 0x98, 0x23, 0x4E] :=
  ⟨by decide, by decide, by decide,
   resync_discards_garbage 0xF8 [0x01, 0x02, 0x03]
     [0xF8, 0x04, 0x02, 0x08, 0x98, 0x23, 0x4E]
     (by decide) (by decide) (by decide)⟩

/-- A 256-byte CRC-valid response frame used to refute C1 as stated:
`[0xF8, 0x04, byteCount = 0xFB, 251 payload bytes, crcLo, crcHi]`. -/
def bigFrame : List Nat :=
  0xF8 :: 0x04 :: 0xFB :: (List.replicate 251 0 ++ [0x1E, 0x6E])

/-- C1 counterexample.  With zero garbage bytes and a well-formed 256-byte
frame (first byte the slave address, declared byte count matching its
length, valid CRC), the `uint8_t responseLength` counter of the receive
loop wraps from 255 to 0 on the last byte, so the loop hands an empty
buffer to validation and the frame is not returned. -/
theorem resync_256_byte_frame_counterexample :
    bigFrame.length = 256 ∧
    bigFrame.head? = some 0xF8 ∧
    bigFrame.getD 2 0 = bigFrame.length - 5 ∧
    verifyCRC16 bigFrame = true ∧
    receiveResponse 0xF8 bigFrame = [] ∧
    ¬ receiveResponse 0xF8 bigFrame = bigFrame := by
  have hlen : bigFrame.length = 256 := by simp [bigFrame]
  have hrecv : receiveResponse 0xF8 bigFrame = [] := by
    unfold bigFrame receiveResponse receiveRun
    rw [List.foldl_cons]
    have h0 : receiveStep 0xF8 rxInit 0xF8 = ⟨true, [0xF8], 1⟩ := by
      simp [receiveStep, rxInit]
    rw [h0]
    rw [show (⟨true, [0xF8], 1⟩ : RxState) =
          ⟨true, [0xF8], ([0xF8] : List Nat).length⟩ from rfl]
    rw [receiveRun_found 0xF8 _ [0xF8] (by simp) (by simp)]
    have hmod : (([0xF8] : List Nat).length +
        (0x04 :: 0xFB :: (List.replicate 251 0 ++ [0x1E, 0x6E])).length) % 256 = 0 := by
      simp
    rw [hmod]
    simp
  have hverify : verifyCRC16 bigFrame = true := by
    have hsplit : bigFrame = ([0xF8, 0x04, 0xFB] ++ List.replicate 251 0) ++
        [0x1E, 0x6E] := by
      simp [bigFrame]
    rw [hsplit, verifyCRC16_append_pair]
    have hcrc : calculateCRC16 ([0xF8, 0x04, 0xFB] ++ List.replicate 251 0) =
        28190 := by
      unfold calculateCRC16
      rw [List.foldl_append]
      have d0 : List.foldl crcByte 0xFFFF [0xF8, 0x04, 0xFB] = 29363 := by decide
      have hrep : List.replicate 251 (0 : Nat) =
          List.replicate 32 0 ++ (List.replicate 32 0 ++ (List.replicate 32 0 ++
          (List.replicate 32 0 ++ (List.replicate 32 0 ++ (List.replicate 32 0 ++
          (List.replicate 32 0 ++ List.replicate 27 0)))))) := by
        rw [← List.replicate_add, ← List.replicate_add, ← List.replicate_add,
            ← List.replicate_add, ← List.replicate_add, ← List.replicate_add,
            ← List.replicate_add]
      have d1 : List.foldl crcByte 29363 (List.replicate 32 0) = 19058 := by
        rw [show List.replicate 32 (0 : Nat) = List.replicate 16 0 ++ List.replicate 16 0 by
              rw [← List.replicate_add]]
        rw [List.foldl_append]
        decide
      have d2 : List.foldl crcByte 19058 (List.replicate 32 0) = 14750 := by
        rw [show List.replicate 32 (0 : Nat) = List.replicate 16 0 ++ List.replicate 16 0 by
              rw [← List.replicate_add]]
        rw [List.foldl_append]
        decide
      have d3 : List.foldl crcByte 14750 (List.replicate 32 0) = 22358 := by
        rw [show List.replicate 32 (0 : Nat) = List.replicate 16 0 ++ List.replicate 16 0 by
              rw [← List.replicate_add]]
        rw [List.foldl_append]
        decide
      have d4 : List.foldl crcByte 22358 (List.replicate 32 0) = 50911 := by
        rw [show List.replicate 32 (0 : Nat) = List.replicate 16 0 ++ List.replicate 16 0 by
              rw [← List.replicate_add]]
        rw [List.foldl_append]
        decide
      have d5 : List.foldl crcByte 50911 (List.replicate 32 0) = 19202 := by
        rw [show List.replicate 32 (0 : Nat) = List.replicate 16 0 ++ List.replicate 16 0 by
              rw [← List.replicate_add]]
        rw [List.foldl_append]
        decide
      have d6 : List.foldl crcByte 19202 (List.replicate 32 0) = 14641 := by
        rw [show List.replicate 32 (0 : Nat) = List.replicate 16 0 ++ List.replicate 16 0 by
              rw [← List.replicate_add]]
        rw [List.foldl_append]
        decide
      have d7 : List.foldl crcByte 14641 (List.replicate 32 0) = 45834 := by
        rw [show List.replicate 32 (0 : Nat) = List.replicate 16 0 ++ List.replicate 16 0 by
              rw [← List.replicate_add]]
        rw [List.foldl_append]
        decide
      have d8 : List.foldl crcByte 45834 (List.replicate 27 0) = 28190 := by
        rw [show List.replicate 27 (0 : Nat) = List.replicate 16 0 ++ List.replicate 11 0 by
              rw [← List.replicate_add]]
        rw [List.foldl_append]
        decide
      rw [d0, hrep, List.foldl_append, d1, List.foldl_append, d2,
          List.foldl_append, d3, List.foldl_append, d4, List.foldl_append, d5,
          List.foldl_append, d6, List.foldl_append, d7, d8]
    rw [hcrc]
    decide
  refine ⟨hlen, by decide, ?_, hverify, hrecv, ?_⟩
  · rw [hlen]
    decide
  · rw [hrecv]
    simp [bigFrame]

/-! ## C2: timeout boundary -/

/-- C2 counterexample.  The post-loop code never re-checks
`minBytesExpected`: a CRC-valid non-exception frame that is *shorter*
than the function-specific minimum (here a 1-register reply to a
2-register request, 7 bytes < 9) sits in the buffer when the overall
timeout runs out, passes validation, and the call returns success with
the short payload — it does not fail, and it does publish register
values. -/
theorem timeout_short_frame_counterexample :
    ([0xF8, 0x04, 0x02, 0x08, 0x98, 0x23, 0x4E] : List Nat).length <
      minBytesExpected 2 ∧
    processResponse 0xF8 2 true [0xF8, 0x04, 0x02, 0x08, 0x98, 0x23, 0x4E] =
      .ok [2200] := by
  constructor
  · decide
  · decide

/-- A response that fails CRC verification is never accepted, whichever
earlier branch fires. -/
theorem validateResponse_ne_ok_of_crc_false (resp : List Nat)
    (numRegs : Nat) (big_endian : Bool) (h : verifyCRC16 resp = false)
    (regs : List Nat) : validateResponse resp numRegs big_endian ≠ .ok regs := by
  unfold validateResponse
  split
  · intro hEq
    exact ReadOutcome.noConfusion hEq
  · split
    · intro hEq
      exact ReadOutcome.noConfusion hEq
    · rw [h]
      intro hEq
      exact ReadOutcome.noConfusion hEq

/-- C2 amended.  If fewer than `minBytesExpected` bytes are buffered when
the overall timeout elapses, the early-exit condition of the receive loop
never fired, and the call then fails — provided the partial buffer does
not itself verify as a complete CRC-valid frame; in particular every
truncated buffer that fails CRC verification (including the empty buffer)
is rejected and publishes nothing.  (A short buffer that happens to be a
complete CRC-valid non-exception frame is accepted, which is what the
counterexample exhibits.) -/
theorem timeout_short_arrival_fails (slaveAddr numRegs : Nat)
    (big_endian : Bool) (incoming : List Nat)
    (_hshort : (receiveResponse slaveAddr incoming).length <
      minBytesExpected numRegs)
    (hcrc : verifyCRC16 (receiveResponse slaveAddr incoming) = false) :
    ∀ regs, processResponse slaveAddr numRegs big_endian incoming ≠
      .ok regs := by
  intro regs
  unfold processResponse
  exact validateResponse_ne_ok_of_crc_false _ numRegs big_endian hcrc regs

/-- Witness for C2 at a two-byte truncated arrival. -/
theorem timeout_short_arrival_fails_witness :
    (receiveResponse 0xF8 [0xF8, 0x04]).length < minBytesExpected 2 ∧
    verifyCRC16 (receiveResponse 0xF8 [0xF8, 0x04]) = false ∧
    ∀ regs, processResponse 0xF8 2 true [0xF8, 0x04] ≠ .ok regs :=
  ⟨by decide, by decide,
   timeout_short_arrival_fails 0xF8 2 true [0xF8, 0x04] (by decide) (by decide)⟩

/-! ## C8: frame-length invariants -/

theorem regBytes_length (big_endian : Bool) (v : Nat) :
    (regBytes big_endian v).length = 2 := by
  unfold regBytes
  split <;> rfl

theorem payload_length (big_endian : Bool) (data : List Nat) :
    ((data.map (regBytes big_endian)).flatten).length = 2 * data.length := by
  induction data with
  | nil => rfl
  | cons v rest ih =>
      simp only [List.map_cons, List.flatten_cons, List.length_append,
        List.length_cons, regBytes_length, ih]
      omega

theorem writeMultipleFrame_length (a s : Nat) (data : List Nat) (be : Bool) :
    (writeMultipleFrame a s data be).length = 9 + 2 * data.length := by
  unfold writeMultipleFrame
  simp only [List.length_append, List.length_cons, List.length_nil,
    payload_length]
  omega

/-- C8 counterexample.  For 124 registers the `uint8_t totalBytes`
truncates `9 + 2·124 = 257` to `1`, so `writeMultipleRegisters` hands
exactly one byte to the serial port instead of a `9 + 2n`-byte frame
(and its too-large guard can never fire because a `uint8_t` is always
`< 256`). -/
theorem write_multiple_truncation_counterexample :
    writeMultipleTotalBytes 124 = 1 ∧
    (writeMultipleTransmitted 0x01 0 (List.replicate 124 0) true).length = 1 ∧
    ¬ (writeMultipleTransmitted 0x01 0 (List.replicate 124 0) true).length =
        9 + 2 * (List.replicate 124 (0 : Nat)).length := by
  have h1 : writeMultipleTotalBytes 124 = 1 := by decide
  have h2 : (writeMultipleTransmitted 0x01 0 (List.replicate 124 0) true).length = 1 := by
    unfold writeMultipleTransmitted
    rw [List.length_take, writeMultipleFrame_length]
    simp [writeMultipleTotalBytes]
  refine ⟨h1, h2, ?_⟩
  rw [h2]
  simp

/-- C8 amended.  Every read request (function codes 0x03/0x04) is exactly
8 bytes, laid out `[addr, func, startHi, startLo, countHi, countLo,
crcLo, crcHi]`; and for every register count `n ≤ 123` (so that
`9 + 2n` fits the `uint8_t totalBytes`), `writeMultipleRegisters`
transmits a frame of exactly `9 + 2n` bytes whose byte-count field
(offset 6) equals `2n`.  For `n ≥ 124` the `uint8_t` truncation breaks
the invariant, as the counterexample shows. -/
theorem frame_length_invariants (slaveAddr funcCode startAddr numRegs : Nat)
    (a s : Nat) (data : List Nat) (be : Bool) (hn : data.length ≤ 123) :
    (buildReadRequest slaveAddr funcCode startAddr numRegs).length = 8 ∧
    (writeMultipleTransmitted a s data be).length = 9 + 2 * data.length ∧
    (writeMultipleTransmitted a s data be).getD 6 0 = 2 * data.length := by
  have hread : (buildReadRequest slaveAddr funcCode startAddr numRegs).length = 8 := by
    unfold buildReadRequest
    simp
  have htot : writeMultipleTotalBytes data.length = 9 + 2 * data.length := by
    unfold writeMultipleTotalBytes
    have : 6 + 1 + 2 * data.length + 2 < 256 := by omega
    rw [Nat.mod_eq_of_lt this]
    omega
  have hfull : writeMultipleTransmitted a s data be =
      writeMultipleFrame a s data be := by
    unfold writeMultipleTransmitted
    rw [htot]
    apply List.take_of_length_le
    rw [writeMultipleFrame_length]
  refine ⟨hread, ?_, ?_⟩
  · rw [hfull, writeMultipleFrame_length]
  · rw [hfull]
    unfold writeMultipleFrame
    rw [List.getD_append _ _ _ _ (by simp)]
    simp only [List.getD_cons_succ, List.getD_cons_zero]
    exact Nat.mod_eq_of_lt (by omega)

/-- Witness for C8 at a concrete two-register write. -/
theorem frame_length_invariants_witness :
    ([0x0102, 0x0304] : List Nat).length ≤ 123 ∧
    ((buildReadRequest 0xF8 0x04 0 1).length = 8 ∧
     (writeMultipleTransmitted 0x01 0x0004 [0x0102, 0x0304] true).length =
       9 + 2 * ([0x0102, 0x0304] : List Nat).length ∧
     (writeMultipleTransmitted 0x01 0x0004 [0x0102, 0x0304] true).getD 6 0 =
       2 * ([0x0102, 0x0304] : List Nat).length) :=
  ⟨by decide,
   frame_length_invariants 0xF8 0x04 0 1 0x01 0x0004 [0x0102, 0x0304] true
     (by decide)⟩

/-! ## C9: extraction bounds -/

theorem extractRegs_length (response : List Nat) (be : Bool) (byteEnd : Nat) :
    ∀ (remaining i : Nat),
      (extractRegs response be byteEnd remaining i).length =
        min remaining ((byteEnd - i + 1) / 2) := by
  intro remaining
  induction remaining with
  | zero => intro i; simp [extractRegs]
  | succ r ih =>
      intro i
      unfold extractRegs
      split
      · rename_i hlt
        simp only [List.length_cons, ih (i + 2)]
        omega
      · rename_i hge
        simp only [List.length_nil]
        omega

theorem extractReadOffsets_bound (byteEnd : Nat) :
    ∀ (remaining i : Nat), (byteEnd - i) % 2 = 0 →
      ∀ o ∈ extractReadOffsets byteEnd remaining i, o < byteEnd := by
  intro remaining
  induction remaining with
  | zero => intro i _ o ho; simp [extractReadOffsets] at ho
  | succ r ih =>
      intro i hpar o ho
      unfold extractReadOffsets at ho
      split at ho
      · rename_i hlt
        simp only [List.mem_cons] at ho
        rcases ho with rfl | rfl | ho
        · exact hlt
        · omega
        · exact ih (i + 2) (by omega) o ho
      · simp at ho

/-- C9 counterexample.  A CRC-valid read response declaring an *odd* byte
count (`byteCount = 1`) makes the extraction loop run `⌈byteCount/2⌉`
iterations: it writes one register instead of
`min(numRegs, byteCount/2) = 0`, and it reads `response[4]`, the byte at
offset `3 + byteCount` — one past the declared payload (here the CRC low
byte). -/
theorem extract_odd_bytecount_counterexample :
    verifyCRC16 [0xF8, 0x04, 0x01, 0xAB, 0x30, 0xAA] = true ∧
    ([0xF8, 0x04, 0x01, 0xAB, 0x30, 0xAA] : List Nat).getD 2 0 = 1 ∧
    (extractRegisters [0xF8, 0x04, 0x01, 0xAB, 0x30, 0xAA] 1 true).length = 1 ∧
    ¬ (extractRegisters [0xF8, 0x04, 0x01, 0xAB, 0x30, 0xAA] 1 true).length =
        min 1 (1 / 2) ∧
    4 ∈ extractReadOffsets (3 + 1) 1 3 ∧
    ¬ (4 < 3 + 1) := by
  refine ⟨by decide, by decide, by decide, by decide, by decide, by decide⟩

/-- C9 amended.  For every CRC-valid read response whose declared byte
count is even (and at most 252 — for `byteCount ≥ 253` the C loop's
`uint8_t` counter `i` wraps and the loop never terminates), the
extraction loop writes exactly `min(numRegs, byteCount/2)` registers from
byte pairs starting at offset 3 and dereferences only offsets strictly
below `3 + byteCount`.  For odd byte counts it writes
`min(numRegs, (byteCount+1)/2)` registers and its last pair read touches
offset `3 + byteCount` itself, as the counterexample shows. -/
theorem extract_registers_bounds (response : List Nat) (numRegs : Nat)
    (be : Bool) (_hcrc : verifyCRC16 response = true)
    (heven : (response.getD 2 0) % 2 = 0)
    (_hterm : response.getD 2 0 ≤ 252) :
    (extractRegisters response numRegs be).length =
      min numRegs ((response.getD 2 0) / 2) ∧
    ∀ o ∈ extractReadOffsets (3 + response.getD 2 0) numRegs 3,
      o < 3 + response.getD 2 0 := by
  constructor
  · unfold extractRegisters
    rw [extractRegs_length]
    congr 1
    omega
  · exact extractReadOffsets_bound (3 + response.getD 2 0) numRegs 3 (by omega)

/-- Witness for C9 at the Scenario A reply (byte count 2, one register
requested). -/
theorem extract_registers_bounds_witness :
    verifyCRC16 [0xF8, 0x04, 0x02, 0x08, 0x98, 0x23, 0x4E] = true ∧
    ([0xF8, 0x04, 0x02, 0x08, 0x98, 0x23, 0x4E] : List Nat).getD 2 0 % 2 = 0 ∧
    ([0xF8, 0x04, 0x02, 0x08, 0x98, 0x23, 0x4E] : List Nat).getD 2 0 ≤ 252 ∧
    ((extractRegisters [0xF8, 0x04, 0x02, 0x08, 0x98, 0x23, 0x4E] 1 true).length =
      min 1 (([0xF8, 0x04, 0x02, 0x08, 0x98, 0x23, 0x4E] : List Nat).getD 2 0 / 2) ∧
     ∀ o ∈ extractReadOffsets
        (3 + ([0xF8, 0x04, 0x02, 0x08, 0x98, 0x23, 0x4E] : List Nat).getD 2 0) 1 3,
       o < 3 + ([0xF8, 0x04, 0x02, 0x08, 0x98, 0x23, 0x4E] : List Nat).getD 2 0) :=
  ⟨by decide, by decide, by decide,
   extract_registers_bounds [0xF8, 0x04, 0x02, 0x08, 0x98, 0x23, 0x4E] 1 true
     (by decide) (by decide) (by decide)⟩

/-! ## C10: the direction-control pin is never driven -/

/-- Any operation on a state whose `_rs485_en` is still `-1` leaves
`_rs485_en` at `-1` and performs no GPIO operation. -/
theorem rs485Step_preserves (st : RS485State) (op : RS485Op)
    (h : st.rs485_en = -1) :
    (rs485Step st op).rs485_en = -1 ∧ (rs485Step st op).pinOps = st.pinOps := by
  cases op with
  | setEnablePin p =>
      simp [rs485Step, setEnable, h]
  | transaction =>
      simp [rs485Step, enableTransmit, enableReceive, h]
  | configureTimeout t =>
      simp [rs485Step, setTimeouts, h]

theorem rs485Fold_preserves : ∀ (ops : List RS485Op) (st : RS485State),
    st.rs485_en = -1 →
    (ops.foldl rs485Step st).rs485_en = -1 ∧
    (ops.foldl rs485Step st).pinOps = st.pinOps := by
  intro ops
  induction ops with
  | nil => intro st h; exact ⟨h, rfl⟩
  | cons op rest ih =>
      intro st h
      rw [List.foldl_cons]
      have h1 := rs485Step_preserves st op h
      have h2 := ih (rs485Step st op) h1.1
      exact ⟨h2.1, h2.2.trans h1.2⟩

/-- C10.  The constructor initialises `_rs485_en` to `-1` and `setEnable`
assigns a pin only under the guard `_rs485_en >= 0`, so after every
sequence of public operations `_rs485_en` is still `-1`, no `pinMode` or
`digitalWrite` has ever been issued, and any further `setEnable` call
returns `false`: the half-duplex direction line is never actually
controlled through this interface. -/
theorem rs485_enable_pin_invariant (ops : List RS485Op) :
    (rs485Run ops).rs485_en = -1 ∧
    (rs485Run ops).pinOps = [] ∧
    ∀ pin, (setEnable (rs485Run ops) pin).1 = false := by
  have h := rs485Fold_preserves ops rs485Init rfl
  have hrun1 : (rs485Run ops).rs485_en = -1 := h.1
  have hrun2 : (rs485Run ops).pinOps = [] := h.2
  refine ⟨hrun1, hrun2, ?_⟩
  intro pin
  unfold setEnable
  rw [if_neg (by rw [hrun1]; decide)]

end PZEMPlus
